import Mathlib

/-!
Verification of the resilience / storage layer of the HuggingSpace repository.

The embedding below is a shallow model of:
  * `src/src/lib/supabase.ts` — `readEnvVariable`, `waitForConnection`,
    `withRetry`, the module-level `isConnected` flag;
  * the storage helpers in the same file — `buildStoragePath`, `uploadFile`
    (`MAX_FILE_SIZE` check);
  * the hook-layer merge step of `addFile` / `uploadFiles` in
    `src/unnamed/part_000`, together with `buildFileTree` (whose source file
    `src/utils/repository.ts` is not part of the sources and is therefore
    modelled from the specification, §4.4).

Promises are modelled by explicit outcome values: an asynchronous operation
is a function from the (1-based) attempt index to the settlement of the
10-second race of the operation against the timeout promise — either a
resolution (carrying a JS-falsiness flag, since the code tests `!result`)
or a rejection carrying the `Error` message.  Timing (backoff delays,
jitter) affects no value computed here and is not modelled; invocation
counts are tracked explicitly.
-/

/-! ## JS string primitives -/

/-- `headMatch pat s` — does `s` start with `pat` (character lists)? -/
def headMatch : List Char → List Char → Bool
  | [], _ => true
  | _ :: _, [] => false
  | p :: ps, c :: cs => p = c && headMatch ps cs

/-- `occursIn pat s` — does `pat` occur contiguously inside `s`?  This is
the semantics of JS `String.prototype.includes`. -/
def occursIn : List Char → List Char → Bool
  | pat, [] => pat.isEmpty
  | pat, c :: rest => headMatch pat (c :: rest) || occursIn pat rest

/-- JS `s.includes(pat)`. -/
def strIncludes (s pat : String) : Bool :=
  occursIn pat.data s.data

/-- The whitespace characters removed by JS `String.prototype.trim`
(ASCII whitespace, NBSP and the BOM; the exotic Unicode space code points
play no role in any claim). -/
def isJsWhitespace (c : Char) : Bool :=
  c = ' ' || c = '\t' || c = '\n' || c = '\r' ||
  c = '\x0b' || c = '\x0c' || c = '\u00A0' || c = '\uFEFF'

/-- JS `s.trim()`: strip leading and trailing whitespace. -/
def jsTrim (s : String) : String :=
  String.mk (((s.data.dropWhile isJsWhitespace).reverse.dropWhile isJsWhitespace).reverse)

/-- State-machine form of the regex replace `/\/+/g → "/"`: the Boolean
records whether the previous emitted position sits inside a slash run. -/
def collapseAux : Bool → List Char → List Char
  | _, [] => []
  | prev, c :: rest =>
    if c = '/' then
      if prev then collapseAux true rest
      else '/' :: collapseAux true rest
    else c :: collapseAux false rest

/-- `"x".replace(/\/+/g, "/")` on strings. -/
def collapseSlashes (s : String) : String :=
  String.mk (collapseAux false s.data)

/-- No two adjacent slashes occur in the list. -/
def noAdjSlash : List Char → Bool
  | [] => true
  | [_] => true
  | c₁ :: c₂ :: rest => !(c₁ = '/' && c₂ = '/') && noAdjSlash (c₂ :: rest)

/-! ## `withRetry` (src/src/lib/supabase.ts, lines 109–163) -/

/-- Settlement of one attempt's `Promise.race([operation(), timeoutPromise])`:
either a resolution (with the JS falsiness of the resolved value, tested by
`if (!result)`), or a rejection with the `Error` message. -/
inductive OpOutcome (α : Type) where
  | resolve (value : α) (falsy : Bool)
  | reject (msg : String)

/-- The body of the `try` block for one attempt: a falsy resolution is turned
into `throw new Error('Operation returned no data')`; a truthy resolution is
returned. -/
def attemptOutcome {α : Type} (op : Nat → OpOutcome α) (attempt : Nat) :
    Except String α :=
  match op attempt with
  | .resolve v falsy => if falsy then .error "Operation returned no data" else .ok v
  | .reject m => .error m

/-- The five retryable message signatures tested in the `catch` block. -/
def isRetryableMsg (msg : String) : Bool :=
  strIncludes msg "Failed to fetch" ||
  strIncludes msg "NetworkError" ||
  strIncludes msg "network timeout" ||
  strIncludes msg "Request timeout" ||
  strIncludes msg "Connection refused"

/-- Result of `withRetry`: a return value or a thrown message, together with
the number of times the operation was invoked. -/
inductive RetryResult (α : Type) where
  | success (value : α) (invocations : Nat)
  | failure (msg : String) (invocations : Nat)
deriving DecidableEq

/-- The `for (let attempt = 1; attempt <= maxRetries; attempt++)` loop.
`rem` is the number of attempts still allowed; the invariant
`attempt + rem = maxRetries + 1` ties it to the source's loop counter, so
`rem = 1` is the final attempt (`attempt === maxRetries`). -/
def withRetryGo {α : Type} (op : Nat → OpOutcome α) : Nat → Nat → RetryResult α
  | 0, attempt => .failure "Operation failed after multiple retries" (attempt - 1)
  | rem + 1, attempt =>
    match attemptOutcome op attempt with
    | .ok v => .success v attempt
    | .error msg =>
      if isRetryableMsg msg then
        if rem = 0 then .failure msg attempt
        else withRetryGo op rem (attempt + 1)
      else .failure msg attempt

/-- `withRetry(operation, maxRetries)` from the source.  The connection
pre-check (`if (!isConnected) await waitForConnection()`) only probes and
never affects the loop — its return value is discarded — so it is modelled
separately for the connection-flag claims; backoff delays affect only
timing. -/
def withRetry {α : Type} (op : Nat → OpOutcome α) (maxRetries : Nat) :
    RetryResult α :=
  withRetryGo op maxRetries 1

/-! ## `readEnvVariable` (src/src/lib/supabase.ts, lines 9–39) -/

/-- Result of `readEnvVariable`: a value, `undefined`, or a thrown error. -/
inductive EnvReadResult where
  | value (v : String)
  | undefinedVal
  | thrown (msg : String)
deriving DecidableEq

/-- JS truthiness of an optional environment-variable value: absent and the
empty string are both falsy. -/
def optTruthy : Option String → Bool
  | none => false
  | some s => !(s = "")

/-- The message of the error thrown for a missing required variable. -/
def missingEnvMsg (systemVar viteVar : String) : String :=
  "Missing required environment variable: '" ++ systemVar ++ "' or '" ++
  viteVar ++ "'. Please set it in your system environment or in your .env file."

/-- `readEnvVariable(systemVar, viteVar, isRequired)`.  The two environments
(`process.env` and `import.meta.env`) are maps from names to optional
values; logging has no observable effect on the result. -/
def readEnvVariable (procEnv viteEnv : String → Option String)
    (systemVar viteVar : String) (isRequired : Bool) : EnvReadResult :=
  if optTruthy (procEnv systemVar) then
    .value ((procEnv systemVar).getD "")
  else if optTruthy (viteEnv viteVar) then
    .value ((viteEnv viteVar).getD "")
  else if isRequired then
    .thrown (missingEnvMsg systemVar viteVar)
  else
    .undefinedVal

/-! ## `waitForConnection` and the `isConnected` flag
(src/src/lib/supabase.ts, lines 77–104) -/

/-- Settlement of one readiness probe
(`supabase.from('profiles').select('id').limit(1)`): the resolved object has
a null `error` field (success), a non-null `error` field, or the promise
rejects (caught by the surrounding `catch`). -/
inductive ProbeOutcome where
  | success
  | dbError
  | thrown
deriving DecidableEq

/-- The `while (Date.now() - start < timeout)` loop.  Each iteration issues
probe number `k` and, on failure, sleeps 1000 ms, so iteration `k` starts at
elapsed time `1000·k`; `fuel` is the number of loop iterations the timeout
window still admits.  Returns `(result, isConnected)`. -/
def wfcGo (probe : Nat → ProbeOutcome) : Nat → Nat → Bool → Bool × Bool
  | 0, _, conn => (false, conn)
  | fuel + 1, k, conn =>
    match probe k with
    | .success => (true, true)
    | _ => wfcGo probe fuel (k + 1) conn

/-- Number of probe iterations the loop performs before `Date.now() - start`
reaches `timeout`: iteration `k` runs iff `1000·k < timeout`. -/
def probeWindow (timeout : Nat) : Nat :=
  (timeout + 999) / 1000

/-- `waitForConnection(timeout)` with the module flag threaded explicitly:
returns the Boolean result and the updated `isConnected`. -/
def waitForConnection (probe : Nat → ProbeOutcome) (timeout : Nat)
    (conn : Bool) : Bool × Bool :=
  wfcGo probe (probeWindow timeout) 0 conn

/-- Effect of `withRetry`'s connection pre-check on the flag:
`if (!isConnected) { await waitForConnection(); }` (default timeout 5000),
discarding the Boolean result. -/
def withRetryFlagEffect (probe : Nat → ProbeOutcome) (conn : Bool) : Bool :=
  if conn then conn else (waitForConnection probe 5000 conn).2

/-- The operations of the module that can observe or write `isConnected`.
`checkConnection` (lines 168–182) and every other export never touch the
flag; the storage helpers reach it only through `withRetry`. -/
inductive ModuleOp where
  | waitForConn (probe : Nat → ProbeOutcome) (timeout : Nat)
  | withRetryCall (probe : Nat → ProbeOutcome)
  | checkConnection

/-- The transition each operation applies to the `isConnected` flag. -/
def opFlagEffect : ModuleOp → Bool → Bool
  | .waitForConn probe timeout, conn => (waitForConnection probe timeout conn).2
  | .withRetryCall probe, conn => withRetryFlagEffect probe conn
  | .checkConnection, conn => conn

/-! ## Storage helpers (src/unnamed part of src/src/lib/supabase.ts,
lines 186–234 of the concatenated file) -/

/-- `buildStoragePath(userId, modelId, filename)`: trim, validate, compose,
collapse slash runs.  A thrown `Error` is an `Except.error`. -/
def buildStoragePath (userId modelId filename : String) :
    Except String String :=
  let cleanUserId := jsTrim userId
  let cleanModelId := jsTrim modelId
  let cleanFilename := jsTrim filename
  if cleanUserId = "" || cleanModelId = "" || cleanFilename = "" then
    .error "Invalid path components"
  else
    .ok (collapseSlashes
      (cleanUserId ++ "/models/" ++ cleanModelId ++ "/" ++ cleanFilename))

/-- `MAX_FILE_SIZE = 500 * 1024 * 1024`. -/
def MAX_FILE_SIZE : Nat := 500 * 1024 * 1024

/-- The supabase storage upload response: `{ data, error }`. -/
structure StorageResp where
  dataPath : String
  errorMsg : Option String
deriving DecidableEq

/-- Result of `uploadFile`, with the number of storage-backend calls the
invocation performed (each invocation of the retried closure is one
`supabase.storage.from(...).upload(...)` call). -/
inductive UploadResult where
  | thrown (msg : String) (storageCalls : Nat)
  | ok (path : String) (storageCalls : Nat)
deriving DecidableEq

/-- `uploadFile(userId, modelId, filename, content)`.  `contentSize` is the
byte size of the content blob (a string is first wrapped in a
`Blob`); `storageOp` gives the settlement of each storage call. -/
def uploadFile (userId modelId filename : String) (contentSize : Nat)
    (storageOp : Nat → OpOutcome StorageResp) (maxRetries : Nat) :
    UploadResult :=
  match buildStoragePath userId modelId filename with
  | .error e => .thrown e 0
  | .ok _ =>
    if contentSize > MAX_FILE_SIZE then
      .thrown ("File size exceeds maximum limit of " ++
        toString (MAX_FILE_SIZE / (1024 * 1024)) ++ "MB") 0
    else
      match withRetry storageOp maxRetries with
      | .success resp n =>
        match resp.errorMsg with
        | some e => .thrown e n
        | none => .ok resp.dataPath n
      | .failure msg n => .thrown msg n

/-! ## File tree (hooks in src/unnamed/part_000; builder modelled from §4.4) -/

/-- A node of the hierarchical file view (`FileNode` in the data model).
`lastModified` is a wall-clock timestamp and takes part in no claim, so it
is omitted. -/
inductive FileNode where
  | file (name : String) (path : String) (content : String) (size : Nat)
  | dir (name : String) (path : String) (children : List FileNode)

/-- A flat `{ path, content }` record, the wire shape. -/
structure FlatFile where
  path : String
  content : String
deriving DecidableEq

/-- The `name` field of a node. -/
def nodeName : FileNode → String
  | .file name _ _ _ => name
  | .dir name _ _ => name

/-- The `path` field of a node. -/
def nodePath : FileNode → String
  | .file _ path _ _ => path
  | .dir _ path _ => path

/-- `f.content || ''`: a directory node has no `content`, so it yields the
empty string. -/
def nodeContentOrEmpty : FileNode → String
  | .file _ _ content _ => content
  | .dir _ _ _ => ""

/-- Is the node a directory named `seg`? -/
def isDirNamed (seg : String) : FileNode → Bool
  | .dir nm _ _ => nm = seg
  | .file _ _ _ _ => false

/-- Modelled from the spec: the per-record insertion step of
`buildFileTree` (its source, `src/utils/repository.ts`, is not among the
sources).  Spec §4.4: split the path on `/`, walk/create directory nodes
for every segment except the last, then insert or overwrite a file node at
the final segment with
`{name: lastSegment, type: 'file', path, content, size: content.length}`;
siblings keep insertion order, so newly created nodes are appended. -/
def insertPath : List String → String → String → String → List FileNode → List FileNode
  | [], _, _, _, nodes => nodes
  | [last], _, fullPath, content, nodes =>
    if nodes.any (fun n => nodeName n = last) then
      nodes.map (fun n =>
        if nodeName n = last then .file last fullPath content content.length
        else n)
    else nodes ++ [.file last fullPath content content.length]
  | seg :: s2 :: rest, sofar, fullPath, content, nodes =>
    let childPath := if sofar = "" then seg else sofar ++ "/" ++ seg
    if nodes.any (isDirNamed seg) then
      nodes.map (fun n =>
        match n with
        | .dir nm p ch =>
          if nm = seg then
            .dir nm p (insertPath (s2 :: rest) childPath fullPath content ch)
          else .dir nm p ch
        | .file nm p c sz => .file nm p c sz)
    else
      nodes ++ [.dir seg childPath (insertPath (s2 :: rest) childPath fullPath content [])]

/-- Splitting a character list at every slash (JS `path.split('/')`). -/
def splitSlashAux (cur : List Char) : List Char → List String
  | [] => [String.mk cur.reverse]
  | c :: rest =>
    if c = '/' then String.mk cur.reverse :: splitSlashAux [] rest
    else splitSlashAux (c :: cur) rest

/-- JS `path.split('/')` on strings. -/
def splitSlash (s : String) : List String :=
  splitSlashAux [] s.data

/-- Modelled from the spec: `buildFileTree` folds the records into an
initially empty forest (spec §4.4). -/
def buildFileTree (records : List FlatFile) : List FileNode :=
  records.foldl (fun nodes r => insertPath (splitSlash r.path) "" r.path r.content nodes) []

/-- The merge step of `addFile` (src/unnamed/part_000, lines 63–80) and of
`uploadFiles` (lines 113–124): only the top-level nodes of the current tree
are mapped to flat records (`current.map(f => ({path: f.path, content:
f.content || ''}))`). -/
def flattenTop (nodes : List FileNode) : List FlatFile :=
  nodes.map (fun f => ⟨nodePath f, nodeContentOrEmpty f⟩)

/-- The state update of `addFile`: rebuild the tree from the flattened
top-level records plus the new `{path: filename, content}` record. -/
def addFileMerge (current : List FileNode) (filename content : String) :
    List FileNode :=
  buildFileTree (flattenTop current ++ [⟨filename, content⟩])

mutual

/-- Paths of all file (leaf) nodes in a node, nested ones included. -/
def filePathsOf : FileNode → List String
  | .file _ path _ _ => [path]
  | .dir _ _ children => filePathsList children

/-- Paths of all file nodes in a forest, nested ones included. -/
def filePathsList : List FileNode → List String
  | [] => []
  | n :: ns => filePathsOf n ++ filePathsList ns

end

/-! ## Lemmas and theorems: `withRetry` (C1, C2, C3) -/

/-- A message containing `"Failed to fetch"` is classified retryable. -/
theorem isRetryableMsg_of_fetch {m : String}
    (h : strIncludes m "Failed to fetch" = true) : isRetryableMsg m = true := by
  simp [isRetryableMsg, h]

/-- If every attempt rejects with a retryable message, the loop runs all
remaining attempts and rethrows the final attempt's error. -/
theorem withRetryGo_all_retryable {α : Type} (op : Nat → OpOutcome α)
    (h : ∀ k, ∃ m, op k = OpOutcome.reject m ∧ isRetryableMsg m = true) :
    ∀ rem attempt, ∃ m,
      withRetryGo op (rem + 1) attempt = RetryResult.failure m (attempt + rem) ∧
      op (attempt + rem) = OpOutcome.reject m := by
  intro rem
  induction rem with
  | zero =>
    intro attempt
    obtain ⟨m, hm, hr⟩ := h attempt
    exact ⟨m, by simp [withRetryGo, attemptOutcome, hm, hr], by simpa using hm⟩
  | succ rem ih =>
    intro attempt
    obtain ⟨m, hm, hr⟩ := h attempt
    obtain ⟨m', hm', hop⟩ := ih (attempt + 1)
    refine ⟨m', ?_, ?_⟩
    · have : withRetryGo op (rem + 1 + 1) attempt =
        withRetryGo op (rem + 1) (attempt + 1) := by
        simp [withRetryGo, attemptOutcome, hm, hr]
      rw [this, hm']
      congr 1
      omega
    · have : attempt + 1 + rem = attempt + (rem + 1) := by omega
      rwa [this] at hop

/-- C1: an operation that on every invocation throws an `Error` whose
message contains `"Failed to fetch"` is invoked exactly `maxRetries` times
(for `maxRetries ≥ 1`, so that a final attempt exists), and `withRetry`
then rethrows the final attempt's retryable error instead of retrying
further. -/
theorem withRetry_retryable_exhausts_attempts {α : Type}
    (op : Nat → OpOutcome α) (maxRetries : Nat) (hpos : 1 ≤ maxRetries)
    (h : ∀ k, ∃ m, op k = OpOutcome.reject m ∧
      strIncludes m "Failed to fetch" = true) :
    ∃ m, withRetry op maxRetries = RetryResult.failure m maxRetries ∧
      op maxRetries = OpOutcome.reject m := by
  obtain ⟨rem, rfl⟩ : ∃ rem, maxRetries = rem + 1 :=
    ⟨maxRetries - 1, by omega⟩
  have h' : ∀ k, ∃ m, op k = OpOutcome.reject m ∧ isRetryableMsg m = true :=
    fun k => (h k).imp fun m ⟨hm, hf⟩ => ⟨hm, isRetryableMsg_of_fetch hf⟩
  obtain ⟨m, hgo, hop⟩ := withRetryGo_all_retryable op h' rem 1
  refine ⟨m, ?_, ?_⟩
  · rw [withRetry, hgo]; congr 1; omega
  · have : (1 : Nat) + rem = rem + 1 := by omega
    rwa [this] at hop

/-- Witness for C1 at a concrete operation and `maxRetries = 5`. -/
theorem withRetry_retryable_exhausts_attempts_witness :
    ∃ m, withRetry (fun _ => OpOutcome.reject (α := Nat) "Failed to fetch") 5 =
        RetryResult.failure m 5 ∧
      (fun _ => OpOutcome.reject (α := Nat) "Failed to fetch") 5 =
        OpOutcome.reject m :=
  withRetry_retryable_exhausts_attempts
    (fun _ => OpOutcome.reject "Failed to fetch") 5 (by omega)
    (fun _ => ⟨"Failed to fetch", rfl, by decide⟩)

/-- C2 counterexample: an operation that always resolves with a falsy
result does not get retried: with `maxRetries = 5` the operation is invoked
exactly once — attempt 1, a non-final attempt — and `withRetry` throws
`'Operation returned no data'` immediately, because that message matches
none of the five retryable signatures. -/
theorem withRetry_falsy_cex :
    withRetry (fun _ => OpOutcome.resolve (0 : Nat) true) 5 =
      RetryResult.failure "Operation returned no data" 1 ∧ (1 : Nat) < 5 :=
  ⟨by decide, by omega⟩

/-- C2 amended: an operation that resolves with a falsy result on its first
attempt causes `withRetry` (any `maxRetries ≥ 1`) to throw
`'Operation returned no data'` immediately after one invocation; the
"no data" failure is classified non-retryable, not retryable. -/
theorem withRetry_falsy_throws_immediately {α : Type}
    (op : Nat → OpOutcome α) (maxRetries : Nat) (hpos : 1 ≤ maxRetries)
    (v : α) (hv : op 1 = OpOutcome.resolve v true) :
    withRetry op maxRetries =
      RetryResult.failure "Operation returned no data" 1 := by
  obtain ⟨rem, rfl⟩ : ∃ rem, maxRetries = rem + 1 :=
    ⟨maxRetries - 1, by omega⟩
  have hnr : isRetryableMsg "Operation returned no data" = false := by decide
  simp [withRetry, withRetryGo, attemptOutcome, hv, hnr]

/-- Witness for the amended C2 at a concrete operation. -/
theorem withRetry_falsy_throws_immediately_witness :
    withRetry (fun _ => OpOutcome.resolve (fun n => n + 1) true) 5 =
      RetryResult.failure "Operation returned no data" 1 :=
  withRetry_falsy_throws_immediately _ 5 (by omega) _ rfl

/-- C3: an operation whose first attempt throws an `Error` whose message
matches none of the five retryable signatures is invoked exactly once
(for `maxRetries ≥ 1`), and `withRetry` throws that error immediately. -/
theorem withRetry_nonretryable_immediate {α : Type}
    (op : Nat → OpOutcome α) (maxRetries : Nat) (hpos : 1 ≤ maxRetries)
    (msg : String) (h1 : op 1 = OpOutcome.reject msg)
    (h2 : isRetryableMsg msg = false) :
    withRetry op maxRetries = RetryResult.failure msg 1 := by
  obtain ⟨rem, rfl⟩ : ∃ rem, maxRetries = rem + 1 :=
    ⟨maxRetries - 1, by omega⟩
  simp [withRetry, withRetryGo, attemptOutcome, h1, h2]

/-- Witness for C3: `"permission denied"` is non-retryable and consumes a
single attempt out of 5. -/
theorem withRetry_nonretryable_immediate_witness :
    withRetry (fun _ => OpOutcome.reject (α := Nat) "permission denied") 5 =
      RetryResult.failure "permission denied" 1 :=
  withRetry_nonretryable_immediate _ 5 (by omega) "permission denied" rfl
    (by decide)

/-! ## Lemmas and theorems: `buildStoragePath` (C4, C5) -/

/-- Unfolding the collapse automaton at a slash. -/
theorem collapseAux_cons_slash (b : Bool) (l : List Char) :
    collapseAux b ('/' :: l) =
      if b then collapseAux true l else '/' :: collapseAux true l := by
  cases b <;> simp [collapseAux]

/-- Unfolding the collapse automaton at a non-slash character. -/
theorem collapseAux_cons_noslash (b : Bool) {c : Char} (hc : c ≠ '/')
    (l : List Char) : collapseAux b (c :: l) = c :: collapseAux false l := by
  simp [collapseAux, hc]

/-- The collapse automaton copies a non-empty slash-free block verbatim and
resets its state. -/
theorem collapseAux_append_noslash :
    ∀ (a : List Char), a ≠ [] → (∀ c ∈ a, c ≠ '/') →
    ∀ (b : Bool) (l : List Char),
      collapseAux b (a ++ l) = a ++ collapseAux false l := by
  intro a
  induction a with
  | nil => intro h; exact absurd rfl h
  | cons c r ih =>
    intro _ hns b l
    have hc : c ≠ '/' := hns c (List.mem_cons_self c r)
    cases r with
    | nil => simp [collapseAux, hc]
    | cons c' r' =>
      have hrec := ih (by simp) (fun x hx => hns x (List.mem_cons_of_mem c hx))
        false l
      rw [List.cons_append, collapseAux_cons_noslash b hc, hrec]
      simp

/-- In state `true` (just after a slash) the automaton never emits a slash
first. -/
theorem collapseAux_true_head :
    ∀ (l : List Char) (x : Char) (xs : List Char),
      collapseAux true l = x :: xs → x ≠ '/' := by
  intro l
  induction l with
  | nil => intro x xs h; simp [collapseAux] at h
  | cons c r ih =>
    intro x xs h
    by_cases hc : c = '/'
    · subst hc
      rw [collapseAux_cons_slash, if_pos rfl] at h
      exact ih x xs h
    · rw [collapseAux_cons_noslash true hc] at h
      obtain ⟨rfl, -⟩ := List.cons.inj h
      exact hc

/-- The collapsed output never contains two adjacent slashes. -/
theorem noAdjSlash_collapseAux :
    ∀ (l : List Char) (b : Bool), noAdjSlash (collapseAux b l) = true := by
  intro l
  induction l with
  | nil => intro b; simp [collapseAux, noAdjSlash]
  | cons c r ih =>
    intro b
    by_cases hc : c = '/'
    · subst hc
      cases b with
      | true =>
        rw [collapseAux_cons_slash, if_pos rfl]
        exact ih true
      | false =>
        rw [collapseAux_cons_slash]
        simp only [Bool.false_eq_true, if_false, ite_false]
        rcases hcr : collapseAux true r with _ | ⟨x, xs⟩
        · simp [noAdjSlash]
        · have hx : x ≠ '/' := collapseAux_true_head r x xs hcr
          have hrest := ih true
          rw [hcr] at hrest
          simp [noAdjSlash, hx, hrest]
    · rw [collapseAux_cons_noslash b hc]
      rcases hcr : collapseAux false r with _ | ⟨x, xs⟩
      · simp [noAdjSlash]
      · have hrest := ih false
        rw [hcr] at hrest
        simp [noAdjSlash, hc, hrest]

/-- Splitting at the first slash is unambiguous: slash-free heads followed
by a slash determine each other. -/
theorem append_slash_inj :
    ∀ (a a' b b' : List Char), (∀ c ∈ a, c ≠ '/') → (∀ c ∈ a', c ≠ '/') →
      a ++ '/' :: b = a' ++ '/' :: b' → a = a' ∧ b = b' := by
  intro a
  induction a with
  | nil =>
    intro a' b b' _ ha' h
    cases a' with
    | nil => simpa using h
    | cons c r =>
      exfalso
      rw [List.nil_append, List.cons_append] at h
      obtain ⟨hc, -⟩ := List.cons.inj h
      exact ha' c (List.mem_cons_self c r) hc.symm
  | cons c r ih =>
    intro a' b b' ha ha' h
    cases a' with
    | nil =>
      exfalso
      rw [List.nil_append, List.cons_append] at h
      exact ha c (List.mem_cons_self c r) (List.cons.inj h).1
    | cons c' r' =>
      rw [List.cons_append, List.cons_append] at h
      obtain ⟨rfl, h2⟩ := List.cons.inj h
      obtain ⟨h3, h4⟩ := ih r' b b'
        (fun x hx => ha x (List.mem_cons_of_mem c hx))
        (fun x hx => ha' x (List.mem_cons_of_mem c hx)) h2
      exact ⟨by rw [h3], h4⟩

/-- On a path composed of four non-empty slash-free blocks separated by
single slashes, the collapse pass is the identity. -/
theorem collapseAux_join (u w m f : List Char)
    (hu : u ≠ []) (hu' : ∀ c ∈ u, c ≠ '/')
    (hw : w ≠ []) (hw' : ∀ c ∈ w, c ≠ '/')
    (hm : m ≠ []) (hm' : ∀ c ∈ m, c ≠ '/')
    (hf : f ≠ []) (hf' : ∀ c ∈ f, c ≠ '/') :
    collapseAux false (u ++ '/' :: (w ++ '/' :: (m ++ '/' :: f))) =
      u ++ '/' :: (w ++ '/' :: (m ++ '/' :: f)) := by
  have hlast : collapseAux true f = f := by
    have h := collapseAux_append_noslash f hf hf' true []
    simpa [collapseAux] using h
  rw [collapseAux_append_noslash u hu hu', collapseAux_cons_slash,
    collapseAux_append_noslash w hw hw', collapseAux_cons_slash,
    collapseAux_append_noslash m hm hm', collapseAux_cons_slash]
  simp [hlast]

/-- Does the string contain a slash character? -/
def hasSlash (s : String) : Bool := s.data.contains '/'

/-- A path component in the domain of the injectivity claim, additionally
free of surrounding whitespace (fixed by `jsTrim`). -/
abbrev ValidComp (s : String) : Prop :=
  jsTrim s = s ∧ s ≠ "" ∧ hasSlash s = false

/-- C4: `buildStoragePath` trims all three inputs, throws the validation
error exactly when some input is empty after trimming, and otherwise
returns the composition `"{userId}/models/{modelId}/{filename}"` of the
trimmed components with every run of repeated slashes collapsed to a single
slash — in particular the returned path never contains two adjacent
slashes. -/
theorem buildStoragePath_spec (u m f : String) :
    (buildStoragePath u m f = Except.error "Invalid path components" ↔
      (jsTrim u = "" ∨ jsTrim m = "" ∨ jsTrim f = "")) ∧
    (jsTrim u ≠ "" → jsTrim m ≠ "" → jsTrim f ≠ "" →
      buildStoragePath u m f = Except.ok (collapseSlashes
        (jsTrim u ++ "/models/" ++ jsTrim m ++ "/" ++ jsTrim f)) ∧
      ∀ out, buildStoragePath u m f = Except.ok out →
        noAdjSlash out.data = true) := by
  constructor
  · unfold buildStoragePath
    by_cases h1 : jsTrim u = "" <;> by_cases h2 : jsTrim m = "" <;>
      by_cases h3 : jsTrim f = "" <;> simp [h1, h2, h3]
  · intro h1 h2 h3
    have hok : buildStoragePath u m f = Except.ok (collapseSlashes
        (jsTrim u ++ "/models/" ++ jsTrim m ++ "/" ++ jsTrim f)) := by
      unfold buildStoragePath
      simp [h1, h2, h3]
    refine ⟨hok, fun out hout => ?_⟩
    rw [hok] at hout
    obtain rfl := (Except.ok.inj hout).symm
    exact noAdjSlash_collapseAux _ false

/-- Witness for C4 at concrete inputs: a blank component is rejected, and a
path with doubled slashes in its components is collapsed. -/
theorem buildStoragePath_spec_witness :
    buildStoragePath "alice" "  " "f.txt" =
      Except.error "Invalid path components" ∧
    buildStoragePath " alice " "m1" "f.txt" = Except.ok (collapseSlashes
      (jsTrim " alice " ++ "/models/" ++ jsTrim "m1" ++ "/" ++
        jsTrim "f.txt")) := by
  constructor
  · exact (buildStoragePath_spec "alice" "  " "f.txt").1.mpr
      (Or.inr (Or.inl (by decide)))
  · exact ((buildStoragePath_spec " alice " "m1" "f.txt").2
      (by decide) (by decide) (by decide)).1

/-- Strings with equal character data are equal. -/
theorem strExt (s t : String) (h : s.data = t.data) : s = t := by
  cases s
  cases t
  exact congrArg String.mk h

/-- A non-empty string has non-empty character data. -/
theorem dataNeNil (s : String) (hs : s ≠ "") : s.data ≠ [] := by
  intro hd
  apply hs
  cases s
  simp_all

/-- A slash-free string has slash-free character data. -/
theorem dataNoSlash (s : String) (hs : hasSlash s = false) :
    ∀ c ∈ s.data, c ≠ '/' := by
  intro c hc hceq
  have hnot : ('/') ∉ s.data := by simpa [hasSlash] using hs
  exact hnot (hceq ▸ hc)

/-- The composed storage path in first-slash-split form. -/
theorem composedPathData (u m f : String) :
    (u ++ "/models/" ++ m ++ "/" ++ f).data =
      u.data ++ '/' :: (['m', 'o', 'd', 'e', 'l', 's'] ++ '/' ::
        (m.data ++ '/' :: f.data)) := by
  show u.data ++ ('/' :: ['m', 'o', 'd', 'e', 'l', 's'] ++ ['/']) ++
    m.data ++ ['/'] ++ f.data = _
  simp

/-- C5 counterexample: the claim's restriction (components non-empty after
trimming and slash-free) does not exclude surrounding whitespace, and
trimming erases it: the distinct triples `(" a", "m", "f")` and
`("a", "m", "f")` both lie in the claimed domain yet produce the same
storage path, so `buildStoragePath` is not injective there. -/
theorem buildStoragePath_inj_cex :
    buildStoragePath " a" "m" "f" = buildStoragePath "a" "m" "f" ∧
    ((" a", "m", "f") : String × String × String) ≠ ("a", "m", "f") ∧
    jsTrim " a" ≠ "" ∧ hasSlash " a" = false ∧
    jsTrim "a" ≠ "" ∧ hasSlash "a" = false ∧
    jsTrim "m" ≠ "" ∧ hasSlash "m" = false ∧
    jsTrim "f" ≠ "" ∧ hasSlash "f" = false := by
  refine ⟨rfl, by decide, ?_, ?_, ?_, ?_, ?_, ?_, ?_, ?_⟩ <;> decide

/-- C5 amended: restricted to components that are non-empty, slash-free
and additionally free of surrounding whitespace (`jsTrim`-fixed),
`buildStoragePath` is deterministic and injective: two triples produce the
same storage path exactly when they are equal. -/
theorem buildStoragePath_inj_amended (u₁ m₁ f₁ u₂ m₂ f₂ : String)
    (hu₁ : ValidComp u₁) (hm₁ : ValidComp m₁) (hf₁ : ValidComp f₁)
    (hu₂ : ValidComp u₂) (hm₂ : ValidComp m₂) (hf₂ : ValidComp f₂) :
    buildStoragePath u₁ m₁ f₁ = buildStoragePath u₂ m₂ f₂ ↔
      (u₁ = u₂ ∧ m₁ = m₂ ∧ f₁ = f₂) := by
  constructor
  · intro h
    obtain ⟨htu₁, hne_u₁, hs_u₁⟩ := hu₁
    obtain ⟨htm₁, hne_m₁, hs_m₁⟩ := hm₁
    obtain ⟨htf₁, hne_f₁, hs_f₁⟩ := hf₁
    obtain ⟨htu₂, hne_u₂, hs_u₂⟩ := hu₂
    obtain ⟨htm₂, hne_m₂, hs_m₂⟩ := hm₂
    obtain ⟨htf₂, hne_f₂, hs_f₂⟩ := hf₂
    have e₁ : buildStoragePath u₁ m₁ f₁ = Except.ok (collapseSlashes
        (u₁ ++ "/models/" ++ m₁ ++ "/" ++ f₁)) := by
      unfold buildStoragePath
      simp [htu₁, htm₁, htf₁, hne_u₁, hne_m₁, hne_f₁]
    have e₂ : buildStoragePath u₂ m₂ f₂ = Except.ok (collapseSlashes
        (u₂ ++ "/models/" ++ m₂ ++ "/" ++ f₂)) := by
      unfold buildStoragePath
      simp [htu₂, htm₂, htf₂, hne_u₂, hne_m₂, hne_f₂]
    rw [e₁, e₂] at h
    have hdata : collapseAux false (u₁ ++ "/models/" ++ m₁ ++ "/" ++ f₁).data =
        collapseAux false (u₂ ++ "/models/" ++ m₂ ++ "/" ++ f₂).data := by
      have := Except.ok.inj h
      unfold collapseSlashes at this
      injection this
    rw [composedPathData, composedPathData] at hdata
    have hw : (['m', 'o', 'd', 'e', 'l', 's'] : List Char) ≠ [] := by decide
    have hw' : ∀ c ∈ (['m', 'o', 'd', 'e', 'l', 's'] : List Char),
        c ≠ '/' := by decide
    rw [collapseAux_join u₁.data _ m₁.data f₁.data
        (dataNeNil u₁ hne_u₁) (dataNoSlash u₁ hs_u₁) hw hw'
        (dataNeNil m₁ hne_m₁) (dataNoSlash m₁ hs_m₁)
        (dataNeNil f₁ hne_f₁) (dataNoSlash f₁ hs_f₁),
      collapseAux_join u₂.data _ m₂.data f₂.data
        (dataNeNil u₂ hne_u₂) (dataNoSlash u₂ hs_u₂) hw hw'
        (dataNeNil m₂ hne_m₂) (dataNoSlash m₂ hs_m₂)
        (dataNeNil f₂ hne_f₂) (dataNoSlash f₂ hs_f₂)] at hdata
    obtain ⟨hu, hrest⟩ := append_slash_inj u₁.data u₂.data _ _
      (dataNoSlash u₁ hs_u₁) (dataNoSlash u₂ hs_u₂) hdata
    obtain ⟨-, hrest₂⟩ := append_slash_inj _ _ _ _ hw' hw' hrest
    obtain ⟨hm, hf⟩ := append_slash_inj m₁.data m₂.data f₁.data f₂.data
      (dataNoSlash m₁ hs_m₁) (dataNoSlash m₂ hs_m₂) hrest₂
    exact ⟨strExt u₁ u₂ hu, strExt m₁ m₂ hm, strExt f₁ f₂ hf⟩
  · rintro ⟨rfl, rfl, rfl⟩
    rfl

/-- Witness for the amended C5 at concrete components. -/
theorem buildStoragePath_inj_amended_witness :
    buildStoragePath "alice" "m1" "f.txt" =
      buildStoragePath "alice" "m1" "f.txt" ↔
      (("alice" : String) = "alice" ∧ ("m1" : String) = "m1" ∧
        ("f.txt" : String) = "f.txt") :=
  buildStoragePath_inj_amended "alice" "m1" "f.txt" "alice" "m1" "f.txt"
    (by decide) (by decide) (by decide) (by decide) (by decide) (by decide)

/-! ## Theorems: `uploadFile` size limit (C6) -/

/-- C6: an upload whose (valid-path) content blob exceeds
`500 * 1024 * 1024` bytes throws the size-limit error before any storage
operation: the storage-call count of the invocation is zero. -/
theorem uploadFile_size_limit (u m f : String) (contentSize : Nat)
    (storageOp : Nat → OpOutcome StorageResp) (maxRetries : Nat)
    (h1 : jsTrim u ≠ "") (h2 : jsTrim m ≠ "") (h3 : jsTrim f ≠ "")
    (hsize : contentSize > 500 * 1024 * 1024) :
    uploadFile u m f contentSize storageOp maxRetries =
      UploadResult.thrown "File size exceeds maximum limit of 500MB" 0 := by
  have hpath : buildStoragePath u m f = Except.ok (collapseSlashes
      (jsTrim u ++ "/models/" ++ jsTrim m ++ "/" ++ jsTrim f)) := by
    unfold buildStoragePath
    simp [h1, h2, h3]
  have hgt : contentSize > MAX_FILE_SIZE := by
    unfold MAX_FILE_SIZE
    omega
  unfold uploadFile
  rw [hpath]
  simp only [hgt, if_pos]
  rfl

/-- Witness for C6 at a concrete oversized upload. -/
theorem uploadFile_size_limit_witness :
    uploadFile "u" "m" "f.txt" (500 * 1024 * 1024 + 1)
      (fun _ => OpOutcome.resolve ⟨"p", none⟩ false) 5 =
      UploadResult.thrown "File size exceeds maximum limit of 500MB" 0 :=
  uploadFile_size_limit "u" "m" "f.txt" (500 * 1024 * 1024 + 1)
    (fun _ => OpOutcome.resolve ⟨"p", none⟩ false) 5
    (by decide) (by decide) (by decide) (by omega)

/-! ## Theorems: the `isConnected` flag (C7) and `waitForConnection` (C8) -/

/-- The polling loop leaves the flag unchanged or sets it to `true`. -/
theorem wfcGo_flag (probe : Nat → ProbeOutcome) :
    ∀ (fuel k : Nat) (conn : Bool),
      (wfcGo probe fuel k conn).2 = conn ∨
      (wfcGo probe fuel k conn).2 = true := by
  intro fuel
  induction fuel with
  | zero => intro k conn; left; rfl
  | succ fuel ih =>
    intro k conn
    cases hp : probe k with
    | success => right; simp [wfcGo, hp]
    | dbError => simpa [wfcGo, hp] using ih (k + 1) conn
    | thrown => simpa [wfcGo, hp] using ih (k + 1) conn

/-- C7: every operation of the module that can touch the process-wide
`isConnected` flag either leaves it unchanged or sets it to `true` (when a
readiness probe succeeds); in particular once the flag is `true` it stays
`true` — no operation ever resets it to `false`. -/
theorem isConnected_one_way (op : ModuleOp) (conn : Bool) :
    (conn = true → opFlagEffect op conn = true) ∧
    (opFlagEffect op conn = conn ∨ opFlagEffect op conn = true) := by
  have main : opFlagEffect op conn = conn ∨ opFlagEffect op conn = true := by
    cases op with
    | waitForConn probe timeout =>
      exact wfcGo_flag probe (probeWindow timeout) 0 conn
    | withRetryCall probe =>
      cases conn with
      | true => left; rfl
      | false =>
        have h := wfcGo_flag probe (probeWindow 5000) 0 false
        simp only [opFlagEffect, withRetryFlagEffect, waitForConnection,
          Bool.false_eq_true, if_false, ite_false]
        exact h
    | checkConnection => left; rfl
  refine ⟨fun hc => ?_, main⟩
  subst hc
  rcases main with h | h <;> exact h

/-- Witness for C7: a concrete operation applied to an already-set flag. -/
theorem isConnected_one_way_witness :
    ((true : Bool) = true →
      opFlagEffect (ModuleOp.waitForConn (fun _ => ProbeOutcome.dbError) 5000)
        true = true) ∧
    (opFlagEffect (ModuleOp.waitForConn (fun _ => ProbeOutcome.dbError) 5000)
        true = true ∨
      opFlagEffect (ModuleOp.waitForConn (fun _ => ProbeOutcome.dbError) 5000)
        true = true) := by
  have h := isConnected_one_way
    (ModuleOp.waitForConn (fun _ => ProbeOutcome.dbError) 5000) true
  exact ⟨h.1, Or.inr (h.1 rfl)⟩

/-- Full behaviour of the polling loop from an arbitrary start index:
it returns `true` exactly when one of the probes in its window succeeds,
sets the flag on success, and leaves it untouched on timeout. -/
theorem wfcGo_spec (probe : Nat → ProbeOutcome) :
    ∀ (fuel start : Nat) (conn : Bool),
      ((wfcGo probe fuel start conn).1 = true ↔
        ∃ j, j < fuel ∧ probe (start + j) = ProbeOutcome.success) ∧
      ((wfcGo probe fuel start conn).1 = true →
        (wfcGo probe fuel start conn).2 = true) ∧
      ((wfcGo probe fuel start conn).1 = false →
        (wfcGo probe fuel start conn).2 = conn) := by
  intro fuel
  induction fuel with
  | zero =>
    intro start conn
    refine ⟨?_, ?_, ?_⟩
    · simp [wfcGo]
    · intro h; simp [wfcGo] at h
    · intro _; rfl
  | succ fuel ih =>
    intro start conn
    cases hp : probe start with
    | success =>
      refine ⟨?_, ?_, ?_⟩
      · constructor
        · intro _
          exact ⟨0, by omega, by simpa using hp⟩
        · intro _
          simp [wfcGo, hp]
      · intro _; simp [wfcGo, hp]
      · intro h; simp [wfcGo, hp] at h
    | dbError =>
      obtain ⟨ih1, ih2, ih3⟩ := ih (start + 1) conn
      have hstep : wfcGo probe (fuel + 1) start conn =
          wfcGo probe fuel (start + 1) conn := by
        simp [wfcGo, hp]
      refine ⟨?_, by rw [hstep]; exact ih2, by rw [hstep]; exact ih3⟩
      rw [hstep, ih1]
      constructor
      · rintro ⟨j, hj, hsucc⟩
        exact ⟨j + 1, by omega, by rw [show start + (j + 1) = start + 1 + j by omega]; exact hsucc⟩
      · rintro ⟨j, hj, hsucc⟩
        cases j with
        | zero => rw [Nat.add_zero] at hsucc; rw [hsucc] at hp; cases hp
        | succ j =>
          exact ⟨j, by omega, by rw [show start + 1 + j = start + (j + 1) by omega]; exact hsucc⟩
    | thrown =>
      obtain ⟨ih1, ih2, ih3⟩ := ih (start + 1) conn
      have hstep : wfcGo probe (fuel + 1) start conn =
          wfcGo probe fuel (start + 1) conn := by
        simp [wfcGo, hp]
      refine ⟨?_, by rw [hstep]; exact ih2, by rw [hstep]; exact ih3⟩
      rw [hstep, ih1]
      constructor
      · rintro ⟨j, hj, hsucc⟩
        exact ⟨j + 1, by omega, by rw [show start + (j + 1) = start + 1 + j by omega]; exact hsucc⟩
      · rintro ⟨j, hj, hsucc⟩
        cases j with
        | zero => rw [Nat.add_zero] at hsucc; rw [hsucc] at hp; cases hp
        | succ j =>
          exact ⟨j, by omega, by rw [show start + 1 + j = start + (j + 1) by omega]; exact hsucc⟩

/-- C8: `waitForConnection(timeout)` never throws — probe errors and probe
rejections (`ProbeOutcome.dbError` / `ProbeOutcome.thrown`, the latter
swallowed by the `catch`) only make the loop sleep and re-probe, and the
function totally computes a Boolean.  It returns `true`, setting the
process-wide connected flag, exactly when one of the roughly-every-1000ms
probes inside the timeout window succeeds, and returns `false` with the
flag untouched once the timeout elapses without a successful probe. -/
theorem waitForConnection_spec (probe : Nat → ProbeOutcome) (timeout : Nat)
    (conn : Bool) :
    ((waitForConnection probe timeout conn).1 = true ↔
      ∃ k, k < probeWindow timeout ∧ probe k = ProbeOutcome.success) ∧
    ((waitForConnection probe timeout conn).1 = true →
      (waitForConnection probe timeout conn).2 = true) ∧
    ((waitForConnection probe timeout conn).1 = false →
      (waitForConnection probe timeout conn).2 = conn) := by
  obtain ⟨h1, h2, h3⟩ := wfcGo_spec probe (probeWindow timeout) 0 conn
  refine ⟨?_, h2, h3⟩
  rw [waitForConnection, h1]
  simp

/-- Witness for C8: with a probe that first rejects, then reports a
database error, then succeeds, `waitForConnection(5000)` returns `true`
and sets the flag. -/
theorem waitForConnection_spec_witness :
    (waitForConnection
        (fun k => if k = 0 then ProbeOutcome.thrown
          else if k = 1 then ProbeOutcome.dbError
          else ProbeOutcome.success) 5000 false).1 = true ∧
    (waitForConnection
        (fun k => if k = 0 then ProbeOutcome.thrown
          else if k = 1 then ProbeOutcome.dbError
          else ProbeOutcome.success) 5000 false).2 = true := by
  have h := waitForConnection_spec
    (fun k => if k = 0 then ProbeOutcome.thrown
      else if k = 1 then ProbeOutcome.dbError
      else ProbeOutcome.success) 5000 false
  have hres : (waitForConnection
      (fun k => if k = 0 then ProbeOutcome.thrown
        else if k = 1 then ProbeOutcome.dbError
        else ProbeOutcome.success) 5000 false).1 = true :=
    h.1.mpr ⟨2, by decide, by decide⟩
  exact ⟨hres, h.2.1 hres⟩

/-! ## Theorems: `readEnvVariable` (C9) -/

/-- C9: an environment variable bound to the empty string is treated as
absent.  A primary (system) value `""` makes `readEnvVariable` behave
exactly as if the primary variable were unset — falling through to the
fallback — and when the fallback is `""` as well, a required variable still
throws the missing-variable configuration error rather than returning the
empty string. -/
theorem readEnvVariable_empty_is_absent
    (procEnv viteEnv : String → Option String) (systemVar viteVar : String)
    (isRequired : Bool) (hp : procEnv systemVar = some "") :
    readEnvVariable procEnv viteEnv systemVar viteVar isRequired =
      readEnvVariable (fun _ => none) viteEnv systemVar viteVar isRequired ∧
    (viteEnv viteVar = some "" →
      readEnvVariable procEnv viteEnv systemVar viteVar true =
        EnvReadResult.thrown (missingEnvMsg systemVar viteVar)) := by
  constructor
  · unfold readEnvVariable
    rw [hp]
    simp [optTruthy]
  · intro hv
    unfold readEnvVariable
    rw [hp, hv]
    simp [optTruthy]

/-- Witness for C9: both sources bound to `""`, required — the
configuration error is thrown. -/
theorem readEnvVariable_empty_is_absent_witness :
    readEnvVariable (fun _ => some "") (fun _ => some "")
        "SUPABASE_URL" "VITE_SUPABASE_URL" true =
      readEnvVariable (fun _ => none) (fun _ => some "")
        "SUPABASE_URL" "VITE_SUPABASE_URL" true ∧
    readEnvVariable (fun _ => some "") (fun _ => some "")
        "SUPABASE_URL" "VITE_SUPABASE_URL" true =
      EnvReadResult.thrown (missingEnvMsg "SUPABASE_URL"
        "VITE_SUPABASE_URL") := by
  have h := readEnvVariable_empty_is_absent (fun _ => some "")
    (fun _ => some "") "SUPABASE_URL" "VITE_SUPABASE_URL" true rfl
  exact ⟨h.1, h.2 rfl⟩

/-! ## Lemmas and theorems: the hook merge step drops nested files (C10) -/

/-- `filePathsList` distributes over forest concatenation. -/
theorem filePathsList_append (a b : List FileNode) :
    filePathsList (a ++ b) = filePathsList a ++ filePathsList b := by
  induction a with
  | nil => simp [filePathsList]
  | cons n ns ih => simp [filePathsList, ih]

/-- Mapping a node transformation that can only introduce the path `fp`
over a forest can only introduce the path `fp`. -/
theorem filePaths_map_pointwise (fp : String) (g : FileNode → FileNode)
    (hg : ∀ n p, p ∈ filePathsOf (g n) → p = fp ∨ p ∈ filePathsOf n) :
    ∀ (nodes : List FileNode) (p : String),
      p ∈ filePathsList (nodes.map g) → p = fp ∨ p ∈ filePathsList nodes := by
  intro nodes
  induction nodes with
  | nil => intro p hp; simp [filePathsList] at hp
  | cons n ns ihn =>
    intro p hp
    rw [List.map_cons] at hp
    simp only [filePathsList] at hp ⊢
    rcases List.mem_append.mp hp with h | h
    · rcases hg n p h with h' | h'
      · exact Or.inl h'
      · exact Or.inr (List.mem_append.mpr (Or.inl h'))
    · rcases ihn p h with h' | h'
      · exact Or.inl h'
      · exact Or.inr (List.mem_append.mpr (Or.inr h'))

/-- Inserting one record into a forest adds at most the record's own path
to the set of file paths. -/
theorem filePaths_insertPath :
    ∀ (segs : List String) (sofar fullPath content : String)
      (nodes : List FileNode) (p : String),
      p ∈ filePathsList (insertPath segs sofar fullPath content nodes) →
      p = fullPath ∨ p ∈ filePathsList nodes := by
  intro segs
  induction segs with
  | nil =>
    intro sofar fp c nodes p hp
    right
    simpa [insertPath] using hp
  | cons seg rest ih =>
    intro sofar fp c nodes p hp
    cases rest with
    | nil =>
      by_cases hany : nodes.any (fun n => nodeName n = seg)
      · rw [show insertPath [seg] sofar fp c nodes = nodes.map (fun n =>
            if nodeName n = seg then FileNode.file seg fp c c.length else n)
          from by simp [insertPath, hany]] at hp
        refine filePaths_map_pointwise fp _ ?_ nodes p hp
        intro n q hq
        by_cases hn : nodeName n = seg
        · left; simpa [hn, filePathsOf] using hq
        · right; simpa [hn] using hq
      · rw [show insertPath [seg] sofar fp c nodes =
            nodes ++ [FileNode.file seg fp c c.length]
          from by simp [insertPath, hany]] at hp
        rw [filePathsList_append] at hp
        rcases List.mem_append.mp hp with h | h
        · exact Or.inr h
        · left; simpa [filePathsList, filePathsOf] using h
    | cons s2 rest' =>
      by_cases hany : nodes.any (isDirNamed seg)
      · rw [show insertPath (seg :: s2 :: rest') sofar fp c nodes =
            nodes.map (fun n =>
              match n with
              | FileNode.dir nm pth ch =>
                if nm = seg then
                  FileNode.dir nm pth (insertPath (s2 :: rest')
                    (if sofar = "" then seg else sofar ++ "/" ++ seg) fp c ch)
                else FileNode.dir nm pth ch
              | FileNode.file nm pth cc sz => FileNode.file nm pth cc sz)
          from by simp [insertPath, hany]] at hp
        refine filePaths_map_pointwise fp _ ?_ nodes p hp
        intro n q hq
        cases n with
        | file nm pth cc sz => right; simpa using hq
        | dir nm pth ch =>
          by_cases hn : nm = seg
          · have hq' : q ∈ filePathsList (insertPath (s2 :: rest')
                (if sofar = "" then seg else sofar ++ "/" ++ seg) fp c ch) := by
              simpa [hn, filePathsOf] using hq
            rcases ih _ fp c ch q hq' with h' | h'
            · exact Or.inl h'
            · right; simpa [filePathsOf] using h'
          · right; simpa [hn] using hq
      · rw [show insertPath (seg :: s2 :: rest') sofar fp c nodes =
            nodes ++ [FileNode.dir seg
              (if sofar = "" then seg else sofar ++ "/" ++ seg)
              (insertPath (s2 :: rest')
                (if sofar = "" then seg else sofar ++ "/" ++ seg) fp c [])]
          from by simp [insertPath, hany]] at hp
        rw [filePathsList_append] at hp
        rcases List.mem_append.mp hp with h | h
        · exact Or.inr h
        · have h' : p ∈ filePathsList (insertPath (s2 :: rest')
              (if sofar = "" then seg else sofar ++ "/" ++ seg) fp c []) := by
            simpa [filePathsList, filePathsOf] using h
          rcases ih _ fp c [] p h' with h'' | h''
          · exact Or.inl h''
          · simp [filePathsList] at h''

/-- Every file path of a built tree comes from some record (or from the
forest the fold started on). -/
theorem filePaths_foldRecords :
    ∀ (records : List FlatFile) (nodes : List FileNode) (p : String),
      p ∈ filePathsList (records.foldl (fun ns r =>
        insertPath (splitSlash r.path) "" r.path r.content ns) nodes) →
      p ∈ records.map FlatFile.path ∨ p ∈ filePathsList nodes := by
  intro records
  induction records with
  | nil => intro nodes p hp; exact Or.inr hp
  | cons r rs ih =>
    intro nodes p hp
    rw [List.foldl_cons] at hp
    rcases ih _ p hp with h | h
    · exact Or.inl (List.mem_cons_of_mem _ h)
    · rcases filePaths_insertPath _ _ _ _ _ _ h with h' | h'
      · exact Or.inl (h' ▸ List.mem_cons_self _ _)
      · exact Or.inr h'

/-- The record paths produced by the merge's flatten step are exactly the
top-level node paths. -/
theorem flattenTop_paths (nodes : List FileNode) :
    (flattenTop nodes).map FlatFile.path = nodes.map nodePath := by
  simp [flattenTop]

/-- C10: the merge step of `addFile` (and `uploadFiles`) flattens only the
top-level nodes of the current tree.  A top-level directory node
contributes exactly one `{path, ""}` record — independently of its
children, whose file records are not carried into the rebuilt flat set —
and consequently every file path of the rebuilt tree is a top-level path
of the old tree or the newly added filename: the nested children's file
paths are dropped. -/
theorem addFileMerge_drops_nested (pre post : List FileNode)
    (name path : String) (children : List FileNode)
    (filename content : String) :
    (flattenTop (pre ++ FileNode.dir name path children :: post) =
      flattenTop pre ++ ⟨path, ""⟩ :: flattenTop post) ∧
    (∀ p, p ∈ filePathsList (addFileMerge
        (pre ++ FileNode.dir name path children :: post) filename content) →
      p ∈ (pre ++ FileNode.dir name path children :: post).map nodePath ∨
        p = filename) := by
  constructor
  · simp [flattenTop, nodePath, nodeContentOrEmpty]
  · intro p hp
    unfold addFileMerge buildFileTree at hp
    rcases filePaths_foldRecords _ [] p hp with h | h
    · rw [List.map_append] at h
      rcases List.mem_append.mp h with h' | h'
      · rw [flattenTop_paths] at h'
        exact Or.inl h'
      · rcases List.mem_cons.mp h' with h'' | h''
        · exact Or.inr h''
        · simp at h''
    · simp [filePathsList] at h

/-- Witness for C10: a current tree whose single top-level node is the
directory `"a"` containing the nested file `"a/b.txt"`; after adding
`"c.txt"`, the flatten step carries only `{"a", ""}`, the rebuilt tree's
file paths avoid `"a/b.txt"`, and the nested file is indeed gone. -/
theorem addFileMerge_drops_nested_witness :
    flattenTop [FileNode.dir "a" "a" [FileNode.file "b.txt" "a/b.txt" "x" 1]] =
      [⟨"a", ""⟩] ∧
    (("a" : String) ∈ filePathsList (addFileMerge
        [FileNode.dir "a" "a" [FileNode.file "b.txt" "a/b.txt" "x" 1]]
        "c.txt" "y") →
      ("a" : String) ∈ [FileNode.dir "a" "a"
          [FileNode.file "b.txt" "a/b.txt" "x" 1]].map nodePath ∨
        ("a" : String) = "c.txt") ∧
    filePathsList (addFileMerge
      [FileNode.dir "a" "a" [FileNode.file "b.txt" "a/b.txt" "x" 1]]
      "c.txt" "y") = ["a", "c.txt"] := by
  have h := addFileMerge_drops_nested [] []
    "a" "a" [FileNode.file "b.txt" "a/b.txt" "x" 1] "c.txt" "y"
  refine ⟨?_, fun hm => h.2 "a" (by simpa using hm), by rfl⟩
  simpa using h.1
